import Mathlib

/-!
Verification of the Oratio real-time voice-session manager.

This file gives a shallow embedding of the voice-session code
(`backend/routers/voice_simple.py`, `backend/routers/voice.py`,
`backend/services/conversation_logger_service.py`) and proves the spec's
claims about it.  Python strings on which the code computes (substring
tests, lower-casing, stripping) are modelled as `List Char`; identifiers
that are only compared for equality stay `String`.  Content names
generated with `uuid.uuid4()` are modelled by a per-session freshness
counter over `Nat` (uuid collisions are out of scope).  Asynchronous
coroutines are modelled as explicit state-transformer steps on a session
state, applied in the order the event loop runs them; transport sends
are recorded in logs on the state.
-/

/-- Python `needle.startswith`-style check over char lists. -/
def startsSeq : List Char → List Char → Bool
  | [], _ => true
  | _ :: _, [] => false
  | a :: as, b :: bs => a == b && startsSeq as bs

/-- Python `needle in hay` substring test over char lists. -/
def containsSeq (needle : List Char) : List Char → Bool
  | [] => startsSeq needle []
  | h :: t => startsSeq needle (h :: t) || containsSeq needle t

/-- Python `str.lower()` (ASCII-level model). -/
def pyLower (s : List Char) : List Char := s.map Char.toLower

/-- Python `str.strip()`: drop whitespace from both ends. -/
def pyStrip (s : List Char) : List Char :=
  ((s.dropWhile Char.isWhitespace).reverse.dropWhile Char.isWhitespace).reverse

/-- The interruption-marker predicate used twice in `voice_simple.py`
(`SimpleNovaSonic._process_responses` and `ConnectionManager.process_events`):
`'"interrupted"' in text and 'true' in text.lower()`. -/
def isInterrupted (text : List Char) : Bool :=
  containsSeq "\"interrupted\"".toList text &&
    containsSeq "true".toList (pyLower text)

/-- Payload of a tool result sent back to Nova Sonic.  Mirrors the dicts
built by `ToolProcessor._invoke_chameleon` (`answer` on success, `error`
plus optional `error_type` on failure). -/
structure ToolPayload where
  answer : Option String
  error : Option String
  errorType : Option String
deriving DecidableEq, Repr

/-- Outcome of one Chameleon invocation as seen by
`ToolProcessor._invoke_chameleon`: a successful response, a response whose
body contains an `error` field, or a raised exception (network failure,
timeout, bad JSON, ...). -/
inductive ChamOutcome
  | ok (text : String)
  | backendError (msg ty : String)
  | exn (msg : String)
deriving DecidableEq, Repr

/-- `ToolProcessor._invoke_chameleon`: every outcome, including an
exception, is converted into a returned payload dict; the function never
propagates an exception to its caller. -/
def invokeChameleon : ChamOutcome → ToolPayload
  | .ok text => ⟨some text, none, none⟩
  | .backendError msg ty => ⟨none, some msg, some ty⟩
  | .exn msg => ⟨none, some ("Failed to execute query via agent: " ++ msg), none⟩

/-- Events sent to the upstream Nova Sonic connection (the JSON control
events of `voice_simple.py`, with payload details abstracted and content
names drawn from the freshness counter). -/
inductive UpEvent
  | sessionStart
  | promptStart
  | contentStartText (name : Nat)
  | textInput (name : Nat)
  | contentStartAudio (name : Nat)
  | audioInput (name : Nat) (data : List Nat)
  | contentStartTool (name : Nat) (toolUseId : String)
  | toolResult (name : Nat) (payload : ToolPayload)
  | contentEnd (name : Nat)
  | promptEnd
  | sessionEnd
deriving DecidableEq, Repr

/-- Content name opened by a `contentStart` event, if any. -/
def startsName : UpEvent → Option Nat
  | .contentStartText n => some n
  | .contentStartAudio n => some n
  | .contentStartTool n _ => some n
  | _ => none

/-- Content name closed by a `contentEnd` event, if any. -/
def endsName : UpEvent → Option Nat
  | .contentEnd n => some n
  | _ => none

/-- Count the events of `log` whose `f`-extracted name is `n`. -/
def countName (f : UpEvent → Option Nat) : List UpEvent → Nat → Nat
  | [], _ => 0
  | e :: rest, n => (if f e = some n then 1 else 0) + countName f rest n

def countStarts (log : List UpEvent) (n : Nat) : Nat := countName startsName log n

def countEnds (log : List UpEvent) (n : Nat) : Nat := countName endsName log n

/-- Content-block balance: every content name has as many `contentEnd`s as
`contentStart`s. -/
def balancedLog (log : List UpEvent) : Prop :=
  ∀ n, countStarts log n = countEnds log n

/-- Whether an upstream event is an audio-input event. -/
def isAudioEvt : UpEvent → Bool
  | .audioInput _ _ => true
  | _ => false

/-- State of one `SimpleNovaSonic` instance (`voice_simple.py`).
`contentName` is the system-prompt content name fixed in `__init__`;
`freshCtr` models the uuid generator for subsequently created content
names; `audioQueue` is `self.audio_queue`; `upLog` records every event
sent on the upstream stream; `streamClosed` records
`self.stream.input_stream.close()`. -/
structure NovaState where
  isActive : Bool
  bargeIn : Bool
  contentName : Nat
  audioContentName : Option Nat
  freshCtr : Nat
  audioQueue : List (List Nat)
  upLog : List UpEvent
  streamClosed : Bool
deriving DecidableEq, Repr

def initNova : NovaState :=
  { isActive := false, bargeIn := false, contentName := 0,
    audioContentName := none, freshCtr := 1, audioQueue := [],
    upLog := [], streamClosed := false }

/-- `SimpleNovaSonic.start_session`: opens the stream, marks the session
active, and sends `sessionStart`, `promptStart` (with the tool schema),
then the system-prompt `contentStart`/`textInput`/`contentEnd` triple, in
that order. -/
def startSessionN (s : NovaState) : NovaState :=
  { s with isActive := true,
           upLog := s.upLog ++
             [UpEvent.sessionStart, UpEvent.promptStart,
              UpEvent.contentStartText s.contentName,
              UpEvent.textInput s.contentName,
              UpEvent.contentEnd s.contentName] }

/-- The handshake event sequence sent by `start_session` for the default
system-prompt content name. -/
def handshakeL : List UpEvent :=
  [UpEvent.sessionStart, UpEvent.promptStart, UpEvent.contentStartText 0,
   UpEvent.textInput 0, UpEvent.contentEnd 0]

/-- `SimpleNovaSonic.start_audio_input`: no-op when the session is not
active; otherwise generates a fresh audio content name and sends its
`contentStart`. -/
def startAudioInput (s : NovaState) : NovaState :=
  if s.isActive then
    { s with audioContentName := some s.freshCtr, freshCtr := s.freshCtr + 1,
             upLog := s.upLog ++ [UpEvent.contentStartAudio s.freshCtr] }
  else s

/-- `SimpleNovaSonic.send_audio_chunk`: dropped unless the session is
active and an audio content is open. -/
def sendAudioChunk (s : NovaState) (data : List Nat) : NovaState :=
  match s.audioContentName with
  | some n =>
      if s.isActive then { s with upLog := s.upLog ++ [UpEvent.audioInput n data] }
      else s
  | none => s

/-- `SimpleNovaSonic.end_audio_input`: sends the audio `contentEnd` and
clears the name only when a content is open and the session is active. -/
def endAudioInput (s : NovaState) : NovaState :=
  match s.audioContentName with
  | some n =>
      if s.isActive then
        { s with audioContentName := none,
                 upLog := s.upLog ++ [UpEvent.contentEnd n] }
      else s
  | none => s

/-- `SimpleNovaSonic.end_session`: returns immediately when already
inactive; otherwise marks the session inactive first, then sends
`promptEnd` and `sessionEnd` and closes the stream. -/
def endSessionN (s : NovaState) : NovaState :=
  if s.isActive then
    { s with isActive := false, streamClosed := true,
             upLog := s.upLog ++ [UpEvent.promptEnd, UpEvent.sessionEnd] }
  else s

/-- `SimpleNovaSonic._execute_tool_and_send_result`: generates a fresh
content name and sends the complete
`contentStart`/`toolResult`/`contentEnd` block carrying the `toolUseId`
captured when the task was spawned.  The payload comes from
`invokeChameleon`, which never raises, so the success branch of the
Python `try` is the one taken for every outcome. -/
def executeToolAndSendResult (s : NovaState) (toolUseId : String) (o : ChamOutcome) : NovaState :=
  { s with freshCtr := s.freshCtr + 1,
           upLog := s.upLog ++
             [UpEvent.contentStartTool s.freshCtr toolUseId,
              UpEvent.toolResult s.freshCtr (invokeChameleon o),
              UpEvent.contentEnd s.freshCtr] }

/-- The `textOutput` branch of `SimpleNovaSonic._process_responses`: on an
interruption marker it only sets `barge_in`; it touches no other field
and sends nothing. -/
def readerTextStep (s : NovaState) (text : List Char) : NovaState :=
  if isInterrupted text then { s with bargeIn := true } else s

/-- The `audioOutput` branch of `_process_responses`: enqueue the decoded
frame on `audio_queue`. -/
def readerAudioStep (s : NovaState) (frame : List Nat) : NovaState :=
  { s with audioQueue := s.audioQueue ++ [frame] }

/-- Actions taken by `ConnectionManager.process_audio_responses` toward the
client transport, in the order they happen: audio frames written to the
socket, the `barge_in` notification, and frames drained (discarded)
without being written. -/
inductive RelayAction
  | sentAudio (f : List Nat)
  | sentBargeIn
  | dropped (f : List Nat)
deriving DecidableEq, Repr

/-- State of one `ConnectionManager` (`voice_simple.py`) together with its
`SimpleNovaSonic` client. -/
structure ConnState where
  nova : NovaState
  audioContentStarted : Bool
  relayActions : List RelayAction
deriving DecidableEq, Repr

/-- `ConnectionManager.connect`: accepts the socket, creates the Nova
client and runs `start_session` to completion before anything else (the
message loop starts only afterwards). -/
def connectM : ConnState :=
  { nova := startSessionN initNova, audioContentStarted := false, relayActions := [] }

/-- `ConnectionManager.start_audio`. -/
def startAudioM (cs : ConnState) : ConnState :=
  if cs.audioContentStarted then cs
  else { cs with nova := startAudioInput cs.nova, audioContentStarted := true }

/-- `ConnectionManager.stop_audio`. -/
def stopAudioM (cs : ConnState) : ConnState :=
  if cs.audioContentStarted then
    { cs with nova := endAudioInput cs.nova, audioContentStarted := false }
  else cs

/-- `ConnectionManager.receive_audio`. -/
def receiveAudioM (cs : ConnState) (d : List Nat) : ConnState :=
  if cs.audioContentStarted then { cs with nova := sendAudioChunk cs.nova d }
  else cs

/-- `ConnectionManager.disconnect`: stop audio input if it was started,
then end the Nova session. -/
def disconnectM (cs : ConnState) : ConnState :=
  let cs1 := if cs.audioContentStarted then stopAudioM cs else cs
  { cs1 with nova := endSessionN cs1.nova }

/-- One iteration of the `ConnectionManager.process_audio_responses` loop
(which runs while the Nova client is active).  With `barge_in` set it
first sends the `barge_in` message to the client, then drains the audio
queue discarding every frame, then clears the flag; otherwise it relays
one queued frame to the client. -/
def processAudioStep (cs : ConnState) : ConnState :=
  if cs.nova.isActive then
    if cs.nova.bargeIn then
      { cs with
        relayActions := cs.relayActions ++
          RelayAction.sentBargeIn :: cs.nova.audioQueue.map RelayAction.dropped,
        nova := { cs.nova with audioQueue := [], bargeIn := false } }
    else
      match cs.nova.audioQueue with
      | [] => cs
      | f :: rest =>
          { cs with nova := { cs.nova with audioQueue := rest },
                    relayActions := cs.relayActions ++ [RelayAction.sentAudio f] }
  else cs

/-- Detection of an interruption marker by the reader followed by the next
relay iteration, which performs the barge-in handling. -/
def handleInterrupt (cs : ConnState) (text : List Char) : ConnState :=
  processAudioStep { cs with nova := readerTextStep cs.nova text }

/-- The operations the event loop can interleave on a connected session:
commands from the client (`start_audio`, `stop_audio`, audio frames), an
upstream error terminating the reader, a completed tool task sending its
result, and reader/relay steps. -/
inductive MOp
  | startAudio
  | stopAudio
  | recvAudio (d : List Nat)
  | readerErr
  | toolDone (id : String) (o : ChamOutcome)
  | textOut (t : List Char)
  | audioOut (f : List Nat)
  | relayStep
deriving DecidableEq, Repr

/-- Interpretation of one operation on the connection state.  Reader-side
operations (`toolDone`, `textOut`, `audioOut`) only occur while the
response loop is active. -/
def mstep (cs : ConnState) : MOp → ConnState
  | .startAudio => startAudioM cs
  | .stopAudio => stopAudioM cs
  | .recvAudio d => receiveAudioM cs d
  | .readerErr => { cs with nova := { cs.nova with isActive := false } }
  | .toolDone id o =>
      if cs.nova.isActive then { cs with nova := executeToolAndSendResult cs.nova id o }
      else cs
  | .textOut t =>
      if cs.nova.isActive then { cs with nova := readerTextStep cs.nova t } else cs
  | .audioOut f =>
      if cs.nova.isActive then { cs with nova := readerAudioStep cs.nova f } else cs
  | .relayStep => processAudioStep cs

def runOps (cs : ConnState) (ops : List MOp) : ConnState := ops.foldl mstep cs

/-- A whole session: connect (which completes the handshake), run the
interleaved operations, then the teardown path (`disconnect` in the
websocket handler's `finally`). -/
def sessionRun (ops : List MOp) : ConnState := disconnectM (runOps connectM ops)

/-- Tool-call information captured by the reader's shared slot
(`self.tool_name`, `self.tool_use_id`, `self.tool_use_content`). -/
structure SpawnInfo where
  toolName : String
  toolUseId : String
  content : String
deriving DecidableEq, Repr

/-- Incoming upstream events relevant to tool dispatch in
`_process_responses`: a `toolUse` event (fields already extracted with
their Python defaults), a `contentEnd` with its `type`, or anything
else. -/
inductive IncomingEvt
  | toolUse (toolName toolUseId content : String)
  | contentEndIn (ty : String)
  | otherEvt
deriving DecidableEq, Repr

/-- Reader dispatch state: the single shared tool slot and the list of
spawned `_execute_tool_and_send_result` tasks with the arguments captured
at spawn time, in dispatch order. -/
structure ReaderState where
  slot : Option SpawnInfo
  spawned : List SpawnInfo
deriving DecidableEq, Repr

/-- One reader dispatch step of `_process_responses`: `toolUse` overwrites
the shared slot; `contentEnd` of type `TOOL` spawns a task with the
current slot contents (when the stored tool name is truthy); the slot is
not cleared after a spawn, exactly as in the source. -/
def readerStep (st : ReaderState) : IncomingEvt → ReaderState
  | .toolUse n i c => { st with slot := some ⟨n, i, c⟩ }
  | .contentEndIn ty =>
      if ty = "TOOL" then
        match st.slot with
        | some info =>
            if info.toolName = "" then st
            else { st with spawned := st.spawned ++ [info] }
        | none => st
      else st
  | .otherEvt => st

def readerRunFrom (st : ReaderState) (es : List IncomingEvt) : ReaderState :=
  es.foldl readerStep st

def readerRun (es : List IncomingEvt) : ReaderState :=
  readerRunFrom { slot := none, spawned := [] } es

/-- Events that neither write the tool slot nor trigger a spawn. -/
def NonTool : IncomingEvt → Prop
  | .toolUse _ _ _ => False
  | .contentEndIn ty => ty ≠ "TOOL"
  | .otherEvt => True

/-- Well-formed upstream tool framing: each `toolUse` is followed by the
`contentEnd` of its own content block (possibly with unrelated events in
between) before the next `toolUse` arrives, as the Nova Sonic protocol
guarantees.  `Paired es ts` says `es` is such a sequence whose tool calls
are exactly `ts` in order. -/
inductive Paired : List IncomingEvt → List SpawnInfo → Prop
  | nil : Paired [] []
  | skip {es ts} (e : IncomingEvt) : NonTool e → Paired es ts → Paired (e :: es) ts
  | seg {es ts} (info : SpawnInfo) (mid : List IncomingEvt) :
      info.toolName ≠ "" → (∀ e ∈ mid, NonTool e) → Paired es ts →
      Paired (IncomingEvt.toolUse info.toolName info.toolUseId info.content ::
                (mid ++ IncomingEvt.contentEndIn "TOOL" :: es))
             (info :: ts)

/-- The complete tool-result block one spawned task sends upstream; the
task's own content name (first component) was generated at task start and
the `toolUseId` is the one captured at spawn. -/
def outBlock (p : Nat × SpawnInfo) (res : Nat → ToolPayload) : List UpEvent :=
  [UpEvent.contentStartTool p.1 p.2.toolUseId,
   UpEvent.toolResult p.1 (res p.1),
   UpEvent.contentEnd p.1]

/-- Result blocks sent upstream when tasks complete in the given order. -/
def outBlocksOf (l : List (Nat × SpawnInfo)) (res : Nat → ToolPayload) : List UpEvent :=
  l.flatMap (fun p => outBlock p res)

/-- The teardown steps of `NovaSonicStreamManager.close` (`voice.py`), in
the order the method runs them. -/
inductive TStep
  | audioContentEnd
  | promptEnd
  | sessionEnd
  | streamClose
  | flush
deriving DecidableEq, Repr

/-- Outcome of the DynamoDB `put_item` inside
`ConversationLoggerService.save_to_dynamodb`. -/
inductive PutOutcome
  | ok
  | err (msg : String)
deriving DecidableEq, Repr

/-- `ConversationLoggerService.save_to_dynamodb`: the whole body is inside
`try/except`; any failure is logged and turned into the return value
`False`, success returns `True`.  The function is total: it never
propagates an exception. -/
def saveToDynamodbB : PutOutcome → Bool
  | .ok => true
  | .err _ => false

/-- Which teardown steps fail in a given run of `close`: whether each
`input_stream.send` succeeds, whether `input_stream.close()` raises, and
the outcome of the transcript flush. -/
structure FailProfile where
  sendAudioEndOk : Bool
  sendPromptEndOk : Bool
  sendSessionEndOk : Bool
  streamCloseOk : Bool
  flushOutcome : PutOutcome
deriving DecidableEq, Repr

/-- State of one `NovaSonicStreamManager` (`voice.py`) restricted to what
`close` observes and changes. `steps` records every teardown step the
manager attempted, `delivered` the events whose send succeeded,
`flushResults` the return values of flush attempts, and `raised` whether
an exception escaped to the caller. -/
structure VState where
  isActive : Bool
  steps : List TStep
  delivered : List TStep
  streamClosed : Bool
  flushResults : List Bool
  raised : Bool
deriving DecidableEq, Repr

/-- `NovaSonicStreamManager.send_raw_event`: no-op when the manager is
inactive; a failing `input_stream.send` is caught inside the method (the
error is logged and routed to `input_subject.on_error`), so the caller
never sees an exception. -/
def sendRawV (s : VState) (tag : TStep) (ok : Bool) : VState :=
  if s.isActive then
    { s with steps := s.steps ++ [tag],
             delivered := if ok then s.delivered ++ [tag] else s.delivered }
  else s

/-- `NovaSonicStreamManager.close`: early-returns when already inactive;
otherwise sends the audio `contentEnd`, `promptEnd` and `sessionEnd`
(each through `send_raw_event`), then calls `input_stream.close()` with no
surrounding `try` — if that raises, the transcript flush is never reached
and the exception propagates — then awaits `save_to_dynamodb` and finally
clears `is_active`. -/
def closeV (p : FailProfile) (s : VState) : VState :=
  if s.isActive then
    let s1 := sendRawV s TStep.audioContentEnd p.sendAudioEndOk
    let s2 := sendRawV s1 TStep.promptEnd p.sendPromptEndOk
    let s3 := sendRawV s2 TStep.sessionEnd p.sendSessionEndOk
    if p.streamCloseOk then
      let s4 := { s3 with steps := s3.steps ++ [TStep.streamClose], streamClosed := true }
      let s5 := { s4 with steps := s4.steps ++ [TStep.flush],
                          flushResults := s4.flushResults ++ [saveToDynamodbB p.flushOutcome] }
      { s5 with isActive := false }
    else
      { s3 with steps := s3.steps ++ [TStep.streamClose], raised := true }
  else s

/-- `ToolProcessor._invoke_chameleon`'s runtime session id fix-up: ids
shorter than 33 characters are extended with a hyphen and a 32-character
`uuid4().hex` suffix and truncated to 50 characters. -/
def runtimeSessionIdL (sid suffix : List Char) : List Char :=
  if sid.length < 33 then (sid ++ '-' :: suffix).take 50 else sid

/-- One `textOutput` handling step of `ConnectionManager.process_events`:
skip empty or interruption-marker texts; otherwise clean dedup entries
older than 5 seconds, and forward the transcript to the client only when
no identical `role:stripped-content` key was sent within the window.
Returns the message sent to the client (if any) and the new dedup map. -/
def dedupStep (st : List (List Char × ℚ)) (role content : List Char) (now : ℚ) :
    Option (List Char × List Char) × List (List Char × ℚ) :=
  if content = [] then (none, st)
  else if isInterrupted content then (none, st)
  else
    let key := role ++ ':' :: pyStrip content
    let cleaned := st.filter (fun kv => decide (now - kv.2 < 5))
    if cleaned.any (fun kv => kv.1 == key) then (none, cleaned)
    else (some (pyLower role, content), cleaned ++ [(key, now)])

/-- Concrete inputs used by the witnesses below. -/
def wInterruptedText : List Char := "\x7b \"interrupted\" : true \x7d".toList

def c1wConn : ConnState :=
  { nova := { initNova with isActive := true, audioQueue := [[1], [2, 3]] },
    audioContentStarted := true, relayActions := [] }

def c2wOps : List MOp := [MOp.startAudio, MOp.recvAudio [7]]

def c3wNova : NovaState := startSessionN initNova

def c3wV : VState :=
  { isActive := true, steps := [], delivered := [], streamClosed := false,
    flushResults := [], raised := false }

def c3wP : FailProfile :=
  { sendAudioEndOk := true, sendPromptEndOk := false, sendSessionEndOk := true,
    streamCloseOk := true, flushOutcome := PutOutcome.err "boom" }

def c3wQ : FailProfile :=
  { sendAudioEndOk := false, sendPromptEndOk := false, sendSessionEndOk := false,
    streamCloseOk := false, flushOutcome := PutOutcome.ok }

def c4wInfo1 : SpawnInfo := { toolName := "ask_agent", toolUseId := "t1", content := "q1" }

def c4wInfo2 : SpawnInfo := { toolName := "ask_agent", toolUseId := "t2", content := "q2" }

def c4wEs : List IncomingEvt :=
  [IncomingEvt.otherEvt,
   IncomingEvt.toolUse "ask_agent" "t1" "q1",
   IncomingEvt.contentEndIn "TOOL",
   IncomingEvt.toolUse "ask_agent" "t2" "q2",
   IncomingEvt.otherEvt,
   IncomingEvt.contentEndIn "TOOL"]

def c4wTs : List SpawnInfo := [c4wInfo1, c4wInfo2]

def c4wOrder : List (Nat × SpawnInfo) := [(1, c4wInfo2), (0, c4wInfo1)]

def c4wRes : Nat → ToolPayload := fun _ => ⟨some "fine", none, none⟩

def c6wOps : List MOp :=
  [MOp.startAudio, MOp.recvAudio [2], MOp.stopAudio,
   MOp.toolDone "t1" (ChamOutcome.ok "fine")]

def c6cexOps : List MOp := [MOp.startAudio, MOp.readerErr]

def c7cexP : FailProfile :=
  { sendAudioEndOk := true, sendPromptEndOk := true, sendSessionEndOk := true,
    streamCloseOk := false, flushOutcome := PutOutcome.ok }

def c9wSid : List Char := "sess1".toList

def c9wSuffix : List Char := List.replicate 32 'a'

def c10wSt : List (List Char × ℚ) := [("assistant:Hello".toList, (3 : ℚ))]

def c10wContent : List Char := " Hello ".toList

def c7cexV : VState :=
  { isActive := true, steps := [], delivered := [], streamClosed := false,
    flushResults := [], raised := false }

def c8wP : FailProfile :=
  { sendAudioEndOk := true, sendPromptEndOk := true, sendSessionEndOk := true,
    streamCloseOk := true, flushOutcome := PutOutcome.err "dynamodb down" }

/-- Block accounting while a session runs: with no inbound audio content
open the log is balanced; with content `a` open, `a` has exactly one
unmatched `contentStart` and every other name is balanced. -/
def pendingBalanced (log : List UpEvent) : Option Nat → Prop
  | none => ∀ n, countStarts log n = countEnds log n
  | some a => countStarts log a = countEnds log a + 1
      ∧ ∀ n, n ≠ a → countStarts log n = countEnds log n

/-- Names at or above the freshness counter have never been used. -/
def freshOK (log : List UpEvent) (ctr : Nat) : Prop :=
  ∀ k, ctr ≤ k → countStarts log k = 0 ∧ countEnds log k = 0

/-- Invariant maintained by every operation of an error-free session run:
the session stays active, the manager flag tracks the open audio content,
the log is balanced up to the one open block, and fresh names are
unused. -/
def C6Inv (cs : ConnState) : Prop :=
  cs.nova.isActive = true
  ∧ (cs.audioContentStarted = true ↔ cs.nova.audioContentName.isSome = true)
  ∧ pendingBalanced cs.nova.upLog cs.nova.audioContentName
  ∧ freshOK cs.nova.upLog cs.nova.freshCtr
  ∧ (∀ a, cs.nova.audioContentName = some a → a < cs.nova.freshCtr)

/-- Helper: `closeV` is the identity on an inactive manager. -/
theorem closeV_inactive (q : FailProfile) (x : VState) (hx : x.isActive = false) :
    closeV q x = x := by
  simp [closeV, hx]

/-- C1: when a `textOutput` carrying the interruption marker is detected,
the reader sets the barge-in flag and changes nothing else; the next
relay iteration sends the `barge_in` notification to the client before
draining, discards every queued outbound frame without writing it to the
transport, clears the flag, and leaves the session active with the
inbound audio content and the upstream connection untouched. -/
theorem c1_barge_in_protocol (cs : ConnState) (text : List Char)
    (hint : isInterrupted text = true) (hact : cs.nova.isActive = true) :
    (readerTextStep cs.nova text).bargeIn = true
    ∧ (readerTextStep cs.nova text).isActive = cs.nova.isActive
    ∧ (readerTextStep cs.nova text).audioContentName = cs.nova.audioContentName
    ∧ (readerTextStep cs.nova text).streamClosed = cs.nova.streamClosed
    ∧ (readerTextStep cs.nova text).upLog = cs.nova.upLog
    ∧ (handleInterrupt cs text).relayActions =
        cs.relayActions ++
          RelayAction.sentBargeIn :: cs.nova.audioQueue.map RelayAction.dropped
    ∧ (handleInterrupt cs text).nova.audioQueue = []
    ∧ (handleInterrupt cs text).nova.bargeIn = false
    ∧ (handleInterrupt cs text).nova.isActive = true
    ∧ (handleInterrupt cs text).nova.audioContentName = cs.nova.audioContentName
    ∧ (handleInterrupt cs text).nova.streamClosed = cs.nova.streamClosed
    ∧ (handleInterrupt cs text).nova.upLog = cs.nova.upLog := by
  simp [readerTextStep, handleInterrupt, processAudioStep, hint, hact]

/-- Witness for C1 at a concrete state with two queued frames and a
concrete interrupted `textOutput`. -/
theorem c1_barge_in_protocol_witness :
    (readerTextStep c1wConn.nova wInterruptedText).bargeIn = true
    ∧ (handleInterrupt c1wConn wInterruptedText).relayActions =
        c1wConn.relayActions ++
          RelayAction.sentBargeIn :: c1wConn.nova.audioQueue.map RelayAction.dropped
    ∧ (handleInterrupt c1wConn wInterruptedText).nova.audioQueue = []
    ∧ (handleInterrupt c1wConn wInterruptedText).nova.isActive = true :=
  let h := c1_barge_in_protocol c1wConn wInterruptedText (by decide) (by decide)
  ⟨h.1, h.2.2.2.2.2.1, h.2.2.2.2.2.2.1, h.2.2.2.2.2.2.2.2.1⟩

/-- C3 amended: `SimpleNovaSonic.end_session` marks the session inactive
before any side effect, so a second call is unconditionally a no-op;
`NovaSonicStreamManager.close` clears `is_active` only at the end, so it
is idempotent provided the first call completed (its stream close did not
raise) — then a second call, whatever would fail in it, is a no-op and
the teardown side effects happen exactly once.  The unamended claim fails
when the stream close raises: see the counterexample below. -/
theorem c3_idempotent_teardown :
    (∀ s : NovaState, endSessionN (endSessionN s) = endSessionN s)
    ∧ ∀ (s : VState) (p q : FailProfile), p.streamCloseOk = true →
        closeV q (closeV p s) = closeV p s := by
  constructor
  · intro s
    by_cases h : s.isActive <;> simp [endSessionN, h]
  · intro s p q hp
    by_cases hs : s.isActive
    · exact closeV_inactive q _ (by simp [closeV, sendRawV, hs, hp])
    · have h0 : closeV p s = s := closeV_inactive p s (by simpa using hs)
      rw [h0, closeV_inactive q s (by simpa using hs)]

/-- Witness for C3 at concrete states and failure profiles. -/
theorem c3_idempotent_teardown_witness :
    endSessionN (endSessionN c3wNova) = endSessionN c3wNova
    ∧ closeV c3wQ (closeV c3wP c3wV) = closeV c3wP c3wV :=
  ⟨c3_idempotent_teardown.1 c3wNova, c3_idempotent_teardown.2 c3wV c3wP c3wQ rfl⟩

/-- C3 counterexample: when the first `close` of an active manager raises
in `input_stream.close()` (voice.py line 535 has no surrounding `try`),
`is_active` is never cleared, so a second call to the close path is not a
no-op: it re-attempts the audio `contentEnd`, `promptEnd`, `sessionEnd`
and the stream close, duplicating the teardown side effects. -/
theorem c3_idempotent_teardown_counterexample :
    closeV c7cexP (closeV c7cexP c7cexV) ≠ closeV c7cexP c7cexV
    ∧ (closeV c7cexP (closeV c7cexP c7cexV)).steps =
        [TStep.audioContentEnd, TStep.promptEnd, TStep.sessionEnd, TStep.streamClose,
         TStep.audioContentEnd, TStep.promptEnd, TStep.sessionEnd, TStep.streamClose] ∧
      (closeV c7cexP c7cexV).steps =
        [TStep.audioContentEnd, TStep.promptEnd, TStep.sessionEnd, TStep.streamClose] := by
  refine ⟨by decide, by decide, by decide⟩

/-- C5: a tool invocation failure (backend error or exception) is returned
by `_invoke_chameleon` as a payload containing an `error` message, and
`_execute_tool_and_send_result` sends it inside one complete
`contentStart`/`toolResult`/`contentEnd` block while leaving the session
active state, the open audio content and the stream untouched — no
session-level error is raised for any outcome. -/
theorem c5_tool_failure_recoverable :
    ∀ (s : NovaState) (id : String) (o : ChamOutcome),
      ((executeToolAndSendResult s id o).isActive = s.isActive
        ∧ (executeToolAndSendResult s id o).streamClosed = s.streamClosed
        ∧ (executeToolAndSendResult s id o).audioContentName = s.audioContentName
        ∧ (executeToolAndSendResult s id o).upLog = s.upLog ++
            [UpEvent.contentStartTool s.freshCtr id,
             UpEvent.toolResult s.freshCtr (invokeChameleon o),
             UpEvent.contentEnd s.freshCtr])
      ∧ (∀ m ty, (invokeChameleon (ChamOutcome.backendError m ty)).error = some m)
      ∧ (∀ m, (invokeChameleon (ChamOutcome.exn m)).error =
          some ("Failed to execute query via agent: " ++ m)) := by
  intro s id o
  exact ⟨⟨rfl, rfl, rfl, rfl⟩, fun m ty => rfl, fun m => rfl⟩

/-- C9: the runtime session id passed to the tool backend keeps ids of 33
or more characters unchanged, and extends shorter ones with a hyphen plus
a 32-character hex suffix truncated to 50 characters, which always yields
at least 33 and at most `max (original length) 50` characters. -/
theorem c9_runtime_session_id_length (sid suffix : List Char)
    (hsuf : suffix.length = 32) :
    33 ≤ (runtimeSessionIdL sid suffix).length
    ∧ (33 ≤ sid.length → runtimeSessionIdL sid suffix = sid)
    ∧ (runtimeSessionIdL sid suffix).length ≤ max sid.length 50 := by
  by_cases h : sid.length < 33
  · refine ⟨?_, fun hc => absurd hc (by omega), ?_⟩
    · simp only [runtimeSessionIdL, if_pos h, List.length_take, List.length_append,
        List.length_cons, hsuf]
      omega
    · simp only [runtimeSessionIdL, if_pos h, List.length_take, List.length_append,
        List.length_cons, hsuf]
      omega
  · refine ⟨?_, fun hc => ?_, ?_⟩
    · simp only [runtimeSessionIdL, if_neg h]
      omega
    · simp only [runtimeSessionIdL, if_neg h]
    · simp only [runtimeSessionIdL, if_neg h]
      omega

/-- Witness for C9 at a concrete short session id. -/
theorem c9_runtime_session_id_length_witness :
    33 ≤ (runtimeSessionIdL c9wSid c9wSuffix).length
    ∧ (33 ≤ c9wSid.length → runtimeSessionIdL c9wSid c9wSuffix = c9wSid)
    ∧ (runtimeSessionIdL c9wSid c9wSuffix).length ≤ max c9wSid.length 50 :=
  c9_runtime_session_id_length c9wSid c9wSuffix (by decide)

/-- C10: `process_events` never forwards a `textOutput` carrying the
interruption marker to the client, and never forwards a transcript whose
role and stripped content match one sent within the preceding 5
seconds. -/
theorem c10_transcript_dedup (st : List (List Char × ℚ)) (role content : List Char)
    (now : ℚ) :
    (isInterrupted content = true → (dedupStep st role content now).1 = none)
    ∧ (∀ t : ℚ, (role ++ ':' :: pyStrip content, t) ∈ st → now - t < 5 →
        (dedupStep st role content now).1 = none) := by
  constructor
  · intro hint
    by_cases hc : content = []
    · simp [dedupStep, hc]
    · simp [dedupStep, hc, hint]
  · intro t hmem hlt
    by_cases hc : content = []
    · simp [dedupStep, hc]
    · by_cases hint : isInterrupted content
      · simp [dedupStep, hc, hint]
      · have hkey : (role ++ ':' :: pyStrip content, t) ∈
            st.filter (fun kv => decide (now - kv.2 < 5)) := by
          rw [List.mem_filter]
          exact ⟨hmem, by simpa using hlt⟩
        have hany : (st.filter (fun kv => decide (now - kv.2 < 5))).any
            (fun kv => kv.1 == (role ++ ':' :: pyStrip content)) = true := by
          rw [List.any_eq_true]
          exact ⟨_, hkey, by simp⟩
        simp [dedupStep, hc, hint, hany]

/-- Witness for C10: a concrete interrupted text is suppressed, and a
concrete transcript repeated 4 seconds later is suppressed. -/
theorem c10_transcript_dedup_witness :
    (dedupStep c10wSt "assistant".toList wInterruptedText 10).1 = none
    ∧ (dedupStep c10wSt "assistant".toList c10wContent 7).1 = none :=
  ⟨(c10_transcript_dedup c10wSt "assistant".toList wInterruptedText 10).1 (by decide),
   (c10_transcript_dedup c10wSt "assistant".toList c10wContent 7).2 3 (by decide)
     (by norm_num)⟩

/-- Helper: a dispatch step on an event that is neither a `toolUse` nor a
`TOOL` `contentEnd` leaves the reader state unchanged. -/
theorem readerStep_nonTool (st : ReaderState) (e : IncomingEvt) (h : NonTool e) :
    readerStep st e = st := by
  cases e with
  | toolUse n i c => exact h.elim
  | contentEndIn ty =>
      have hty : ty ≠ "TOOL" := h
      simp [readerStep, hty]
  | otherEvt => rfl

/-- Helper: folding the reader over such events is the identity. -/
theorem readerRunFrom_nonTool :
    ∀ (mid : List IncomingEvt) (st : ReaderState),
      (∀ e ∈ mid, NonTool e) → readerRunFrom st mid = st := by
  intro mid
  induction mid with
  | nil => intro st _; rfl
  | cons e rest ih =>
      intro st h
      show readerRunFrom (readerStep st e) rest = st
      rw [readerStep_nonTool st e (h e (List.mem_cons_self e rest))]
      exact ih st (fun x hx => h x (List.mem_cons_of_mem e hx))

/-- Helper: the reader fold distributes over list append. -/
theorem readerRunFrom_append (st : ReaderState) (l1 l2 : List IncomingEvt) :
    readerRunFrom st (l1 ++ l2) = readerRunFrom (readerRunFrom st l1) l2 :=
  List.foldl_append readerStep st l1 l2

/-- Helper: on a well-formed event sequence the single shared slot hands
each spawned task exactly the tool call that originated it, in order. -/
theorem paired_spawned {es : List IncomingEvt} {ts : List SpawnInfo}
    (h : Paired es ts) :
    ∀ st : ReaderState, (readerRunFrom st es).spawned = st.spawned ++ ts := by
  induction h with
  | nil => intro st; simp [readerRunFrom]
  | skip e hNT hP ih =>
      intro st
      show (readerRunFrom (readerStep st e) _).spawned = _
      rw [readerStep_nonTool st e hNT]
      exact ih st
  | seg info mid hname hmid hP ih =>
      intro st
      show (readerRunFrom
        (readerStep st (IncomingEvt.toolUse info.toolName info.toolUseId info.content))
        (mid ++ IncomingEvt.contentEndIn "TOOL" :: _)).spawned = _
      have step1 :
          readerStep st (IncomingEvt.toolUse info.toolName info.toolUseId info.content) =
          { st with slot := some info } := rfl
      rw [step1, readerRunFrom_append, readerRunFrom_nonTool mid _ hmid]
      have step2 :
          readerStep { st with slot := some info } (IncomingEvt.contentEndIn "TOOL") =
          { st with slot := some info, spawned := st.spawned ++ [info] } := by
        simp [readerStep, hname]
      show (readerRunFrom
        (readerStep { st with slot := some info } (IncomingEvt.contentEndIn "TOOL"))
        _).spawned = _
      rw [step2, ih]
      simp

/-- C4: on a well-formed upstream sequence the reader spawns one task per
`toolUse` event carrying exactly its `toolUseID` (spawn-time argument
capture, despite the shared mutable slot), and tasks completing in any
order send the same multiset of complete result blocks, each block
carrying its own invocation's `toolUseID`. -/
theorem c4_tool_correlation (es : List IncomingEvt) (ts : List SpawnInfo)
    (h : Paired es ts) :
    (readerRun es).spawned = ts
    ∧ ∀ (order : List (Nat × SpawnInfo)) (res : Nat → ToolPayload),
        order.Perm ts.enum →
        (outBlocksOf order res).Perm (outBlocksOf ts.enum res)
        ∧ ∀ p ∈ order,
            UpEvent.contentStartTool p.1 p.2.toolUseId ∈ outBlocksOf order res := by
  refine ⟨?_, ?_⟩
  · simpa [readerRun] using paired_spawned h { slot := none, spawned := [] }
  · intro order res hperm
    refine ⟨List.Perm.flatMap_right _ hperm, ?_⟩
    intro p hp
    rw [outBlocksOf, List.mem_flatMap]
    exact ⟨p, hp, by simp [outBlock]⟩

/-- Witness for C4: two tool calls `t1`, `t2` dispatched in order, with
results completing out of request order. -/
theorem c4_tool_correlation_witness :
    (readerRun c4wEs).spawned = c4wTs
    ∧ (outBlocksOf c4wOrder c4wRes).Perm (outBlocksOf c4wTs.enum c4wRes)
    ∧ UpEvent.contentStartTool 1 "t2" ∈ outBlocksOf c4wOrder c4wRes := by
  have h1 : Paired
      [IncomingEvt.toolUse "ask_agent" "t2" "q2", IncomingEvt.otherEvt,
       IncomingEvt.contentEndIn "TOOL"] [c4wInfo2] := by
    have := Paired.seg c4wInfo2 [IncomingEvt.otherEvt] (by decide)
      (by intro e he; rw [List.mem_singleton] at he; subst he; exact trivial)
      Paired.nil
    exact this
  have h2 : Paired
      [IncomingEvt.toolUse "ask_agent" "t1" "q1", IncomingEvt.contentEndIn "TOOL",
       IncomingEvt.toolUse "ask_agent" "t2" "q2", IncomingEvt.otherEvt,
       IncomingEvt.contentEndIn "TOOL"] c4wTs := by
    have := Paired.seg c4wInfo1 [] (by decide)
      (by intro e he; exact absurd he (List.not_mem_nil e)) h1
    exact this
  have hp : Paired c4wEs c4wTs := Paired.skip IncomingEvt.otherEvt trivial h2
  have hmain := c4_tool_correlation c4wEs c4wTs hp
  have hperm : c4wOrder.Perm c4wTs.enum := by decide
  refine ⟨hmain.1, (hmain.2 c4wOrder c4wRes hperm).1, ?_⟩
  have := (hmain.2 c4wOrder c4wRes hperm).2 (1, c4wInfo2) (by decide)
  simpa using this

/-- C7 counterexample: with an active manager whose `input_stream.close()`
raises, `close` skips the transcript flush and lets the exception
propagate to the caller, so not every teardown step is attempted and the
error is raised rather than only logged. -/
theorem c7_teardown_counterexample :
    (closeV c7cexP c7cexV).raised = true
    ∧ TStep.flush ∉ (closeV c7cexP c7cexV).steps
    ∧ (closeV c7cexP c7cexV).flushResults = [] := by decide

/-- C7 amended: `close` attempts the teardown steps in the stated order;
failures of the three event sends are swallowed inside `send_raw_event`
and a flush failure is swallowed inside `save_to_dynamodb`, so later
steps still run; but when closing the upstream connection raises, the
transcript flush is skipped and the exception propagates to the
caller. -/
theorem c7_teardown_order_best_effort (s : VState) (p : FailProfile)
    (hact : s.isActive = true) :
    (closeV p s).steps = s.steps ++
        [TStep.audioContentEnd, TStep.promptEnd, TStep.sessionEnd, TStep.streamClose] ++
        (if p.streamCloseOk then [TStep.flush] else [])
    ∧ (p.streamCloseOk = true →
        (closeV p s).raised = s.raised ∧ (closeV p s).isActive = false
        ∧ (closeV p s).streamClosed = true
        ∧ (closeV p s).flushResults = s.flushResults ++ [saveToDynamodbB p.flushOutcome])
    ∧ (p.streamCloseOk = false →
        (closeV p s).raised = true ∧ (closeV p s).isActive = true
        ∧ (closeV p s).flushResults = s.flushResults) := by
  by_cases hp : p.streamCloseOk
  · refine ⟨?_, fun _ => ?_, fun hc => absurd hp (by simp [hc])⟩
    · simp [closeV, sendRawV, hact, hp]
    · simp [closeV, sendRawV, hact, hp]
  · refine ⟨?_, fun hc => absurd hc (by simp_all), fun _ => ?_⟩
    · simp [closeV, sendRawV, hact, hp]
    · simp [closeV, sendRawV, hact, hp, hact]

/-- Witness for the amended C7 at a concrete active manager with a failing
`promptEnd` send and a failing flush: all five steps still run in
order. -/
theorem c7_teardown_order_best_effort_witness :
    (closeV c3wP c7cexV).steps = c7cexV.steps ++
        [TStep.audioContentEnd, TStep.promptEnd, TStep.sessionEnd, TStep.streamClose] ++
        (if c3wP.streamCloseOk then [TStep.flush] else [])
    ∧ (closeV c3wP c7cexV).raised = c7cexV.raised :=
  ⟨(c7_teardown_order_best_effort c7cexV c3wP rfl).1,
   ((c7_teardown_order_best_effort c7cexV c3wP rfl).2.1 rfl).1⟩

/-- C8: a transcript-flush failure at session close is returned as `False`
by `save_to_dynamodb` instead of raising, and the close path completes
unaffected: the manager still deactivates and no exception reaches the
caller. -/
theorem c8_flush_failure_nonfatal (s : VState) (p : FailProfile) (m : String)
    (hact : s.isActive = true) (hp : p.streamCloseOk = true)
    (hf : p.flushOutcome = PutOutcome.err m) :
    saveToDynamodbB p.flushOutcome = false
    ∧ (closeV p s).isActive = false
    ∧ (closeV p s).raised = s.raised
    ∧ (closeV p s).flushResults = s.flushResults ++ [false] := by
  rw [hf]
  refine ⟨rfl, ?_, ?_, ?_⟩ <;>
    simp [closeV, sendRawV, hact, hp, hf, saveToDynamodbB]

/-- Witness for C8 at a concrete manager and failing DynamoDB put. -/
theorem c8_flush_failure_nonfatal_witness :
    saveToDynamodbB c8wP.flushOutcome = false
    ∧ (closeV c8wP c7cexV).isActive = false
    ∧ (closeV c8wP c7cexV).raised = c7cexV.raised
    ∧ (closeV c8wP c7cexV).flushResults = c7cexV.flushResults ++ [false] :=
  c8_flush_failure_nonfatal c7cexV c8wP "dynamodb down" rfl rfl rfl

/-- Helper: every operation only appends to the upstream send log. -/
theorem mstep_log_extends (cs : ConnState) (op : MOp) :
    cs.nova.upLog <+: (mstep cs op).nova.upLog := by
  cases op with
  | startAudio =>
      by_cases h : cs.audioContentStarted
      · simp [mstep, startAudioM, h]
      · by_cases h2 : cs.nova.isActive
        · simp only [mstep, startAudioM, h, if_neg, if_false, startAudioInput, if_pos h2]
          exact ⟨_, rfl⟩
        · simp only [mstep, startAudioM, h, if_false, startAudioInput, if_neg h2]
          simp
  | stopAudio =>
      by_cases h : cs.audioContentStarted
      · simp only [mstep, stopAudioM, if_pos h, endAudioInput]
        cases hn : cs.nova.audioContentName with
        | none => simp
        | some n =>
            by_cases h2 : cs.nova.isActive
            · simp only [if_pos h2]
              exact ⟨_, rfl⟩
            · simp [h2]
      · simp [mstep, stopAudioM, h]
  | recvAudio d =>
      by_cases h : cs.audioContentStarted
      · simp only [mstep, receiveAudioM, if_pos h, sendAudioChunk]
        cases hn : cs.nova.audioContentName with
        | none => simp
        | some n =>
            by_cases h2 : cs.nova.isActive
            · simp only [if_pos h2]
              exact ⟨_, rfl⟩
            · simp [h2]
      · simp [mstep, receiveAudioM, h]
  | readerErr => simp [mstep]
  | toolDone id o =>
      by_cases h2 : cs.nova.isActive
      · simp only [mstep, if_pos h2, executeToolAndSendResult]
        exact ⟨_, rfl⟩
      · simp [mstep, h2]
  | textOut t =>
      by_cases h2 : cs.nova.isActive
      · simp only [mstep, if_pos h2, readerTextStep]
        by_cases h3 : isInterrupted t <;> simp [h3]
      · simp [mstep, h2]
  | audioOut f =>
      by_cases h2 : cs.nova.isActive
      · simp [mstep, h2, readerAudioStep]
      · simp [mstep, h2]
  | relayStep =>
      by_cases h2 : cs.nova.isActive
      · simp only [mstep, processAudioStep, if_pos h2]
        by_cases h3 : cs.nova.bargeIn
        · simp [h3]
        · simp only [if_neg h3]
          cases cs.nova.audioQueue with
          | nil => simp
          | cons f rest => simp
      · simp [mstep, processAudioStep, h2]

/-- Helper: running any operation sequence only appends to the log. -/
theorem runOps_log_extends (ops : List MOp) :
    ∀ cs : ConnState, cs.nova.upLog <+: (runOps cs ops).nova.upLog := by
  induction ops with
  | nil => intro cs; exact ⟨[], List.append_nil _⟩
  | cons op rest ih =>
      intro cs
      exact (mstep_log_extends cs op).trans (ih (mstep cs op))

/-- C2: for every session and every interleaving of operations after
`connect`, the five handshake events `sessionStart`, `promptStart`,
system-prompt `contentStart`, `textInput`, `contentEnd` are the first
five events sent upstream, in exactly that order, and none of the first
five events is an audio-input event — hence every `audioInput` sent
upstream occurs strictly after the completed handshake. -/
theorem c2_handshake_ordering (ops : List MOp) :
    handshakeL <+: (runOps connectM ops).nova.upLog
    ∧ ∀ i (h2 : i < (runOps connectM ops).nova.upLog.length), i < 5 →
        isAudioEvt ((runOps connectM ops).nova.upLog.get ⟨i, h2⟩) = false := by
  have hpre : handshakeL <+: (runOps connectM ops).nova.upLog := by
    have h0 : connectM.nova.upLog = handshakeL := rfl
    have h1 := runOps_log_extends ops connectM
    rwa [h0] at h1
  refine ⟨hpre, ?_⟩
  intro i h2 hi5
  have hlen : i < handshakeL.length := by
    simp only [handshakeL, List.length_cons, List.length_nil]
    omega
  have hEq : (runOps connectM ops).nova.upLog.get ⟨i, h2⟩ =
      handshakeL.get ⟨i, hlen⟩ := by
    rw [List.get_eq_getElem, List.get_eq_getElem]
    exact (List.IsPrefix.getElem hpre hlen).symm
  rw [hEq]
  interval_cases i <;> rfl

/-- Witness for C2 on a concrete run that starts audio input and sends one
audio chunk after connecting. -/
theorem c2_handshake_ordering_witness :
    handshakeL <+: (runOps connectM c2wOps).nova.upLog
    ∧ isAudioEvt ((runOps connectM c2wOps).nova.upLog.get ⟨2, by decide⟩) = false :=
  ⟨(c2_handshake_ordering c2wOps).1,
   (c2_handshake_ordering c2wOps).2 2 (by decide) (by decide)⟩

/-- Helper: counts are additive over log append. -/
theorem countName_append (f : UpEvent → Option Nat) (l1 l2 : List UpEvent) (n : Nat) :
    countName f (l1 ++ l2) n = countName f l1 n + countName f l2 n := by
  induction l1 with
  | nil => simp [countName]
  | cons e r ih => simp [countName, ih, Nat.add_assoc]

theorem countStarts_append (l1 l2 : List UpEvent) (n : Nat) :
    countStarts (l1 ++ l2) n = countStarts l1 n + countStarts l2 n :=
  countName_append startsName l1 l2 n

theorem countEnds_append (l1 l2 : List UpEvent) (n : Nat) :
    countEnds (l1 ++ l2) n = countEnds l1 n + countEnds l2 n :=
  countName_append endsName l1 l2 n

theorem countStarts_csa (c n : Nat) :
    countStarts [UpEvent.contentStartAudio c] n = if c = n then 1 else 0 := by
  simp [countStarts, countName, startsName]

theorem countEnds_csa (c n : Nat) :
    countEnds [UpEvent.contentStartAudio c] n = 0 := by
  simp [countEnds, countName, endsName]

theorem countStarts_ce (a n : Nat) :
    countStarts [UpEvent.contentEnd a] n = 0 := by
  simp [countStarts, countName, startsName]

theorem countEnds_ce (a n : Nat) :
    countEnds [UpEvent.contentEnd a] n = if a = n then 1 else 0 := by
  simp [countEnds, countName, endsName]

theorem countStarts_ai (a : Nat) (d : List Nat) (n : Nat) :
    countStarts [UpEvent.audioInput a d] n = 0 := by
  simp [countStarts, countName, startsName]

theorem countEnds_ai (a : Nat) (d : List Nat) (n : Nat) :
    countEnds [UpEvent.audioInput a d] n = 0 := by
  simp [countEnds, countName, endsName]

theorem countStarts_toolblock (c : Nat) (id : String) (p : ToolPayload) (n : Nat) :
    countStarts [UpEvent.contentStartTool c id, UpEvent.toolResult c p,
      UpEvent.contentEnd c] n = if c = n then 1 else 0 := by
  simp [countStarts, countName, startsName]

theorem countEnds_toolblock (c : Nat) (id : String) (p : ToolPayload) (n : Nat) :
    countEnds [UpEvent.contentStartTool c id, UpEvent.toolResult c p,
      UpEvent.contentEnd c] n = if c = n then 1 else 0 := by
  simp [countEnds, countName, endsName]

theorem countStarts_tail (n : Nat) :
    countStarts [UpEvent.promptEnd, UpEvent.sessionEnd] n = 0 := by
  simp [countStarts, countName, startsName]

theorem countEnds_tail (n : Nat) :
    countEnds [UpEvent.promptEnd, UpEvent.sessionEnd] n = 0 := by
  simp [countEnds, countName, endsName]

/-- Helper: appending a block with equal start/end counts preserves
pending-balance. -/
theorem pendingBalanced_append_balanced (log : List UpEvent) (o : Option Nat)
    (l2 : List UpEvent) (hb : ∀ n, countStarts l2 n = countEnds l2 n)
    (h : pendingBalanced log o) : pendingBalanced (log ++ l2) o := by
  cases o with
  | none =>
      intro n
      rw [countStarts_append, countEnds_append, hb n, h n]
  | some a =>
      obtain ⟨h1, h2⟩ := h
      refine ⟨?_, ?_⟩
      · rw [countStarts_append, countEnds_append, hb a, h1]
        omega
      · intro n hn
        rw [countStarts_append, countEnds_append, hb n, h2 n hn]

/-- Helper: opening a never-used content name turns a balanced log into a
log pending on that name. -/
theorem pendingBalanced_open (log : List UpEvent) (c : Nat)
    (h : pendingBalanced log none) (h0s : countStarts log c = 0)
    (h0e : countEnds log c = 0) :
    pendingBalanced (log ++ [UpEvent.contentStartAudio c]) (some c) := by
  refine ⟨?_, ?_⟩
  · rw [countStarts_append, countEnds_append, countStarts_csa, countEnds_csa,
      if_pos rfl, h0s, h0e]
  · intro n hn
    have hnc : ¬ (c = n) := fun hc => hn hc.symm
    rw [countStarts_append, countEnds_append, countStarts_csa, countEnds_csa,
      if_neg hnc, h n]

/-- Helper: closing the open content name restores full balance. -/
theorem pendingBalanced_close (log : List UpEvent) (a : Nat)
    (h : pendingBalanced log (some a)) :
    pendingBalanced (log ++ [UpEvent.contentEnd a]) none := by
  obtain ⟨h1, h2⟩ := h
  intro n
  by_cases hna : a = n
  · subst hna
    rw [countStarts_append, countEnds_append, countStarts_ce, countEnds_ce,
      if_pos rfl, h1]
  · rw [countStarts_append, countEnds_append, countStarts_ce, countEnds_ce,
      if_neg hna, h2 n (fun hc => hna hc.symm)]

/-- Helper: freshness survives appending a block that uses no name at or
above the new counter. -/
theorem freshOK_append (log : List UpEvent) (ctr : Nat) (l2 : List UpEvent)
    (ctr2 : Nat) (h : freshOK log ctr) (hle : ctr ≤ ctr2)
    (hz : ∀ k, ctr2 ≤ k → countStarts l2 k = 0 ∧ countEnds l2 k = 0) :
    freshOK (log ++ l2) ctr2 := by
  intro k hk
  obtain ⟨a1, a2⟩ := h k (le_trans hle hk)
  obtain ⟨b1, b2⟩ := hz k hk
  rw [countStarts_append, countEnds_append, a1, a2, b1, b2]
  exact ⟨rfl, rfl⟩

/-- Helper: the invariant only depends on the five observed fields. -/
theorem c6_inv_of_core_eq (cs cs2 : ConnState)
    (h1 : cs2.nova.isActive = cs.nova.isActive)
    (h2 : cs2.audioContentStarted = cs.audioContentStarted)
    (h3 : cs2.nova.audioContentName = cs.nova.audioContentName)
    (h4 : cs2.nova.upLog = cs.nova.upLog)
    (h5 : cs2.nova.freshCtr = cs.nova.freshCtr)
    (h : C6Inv cs) : C6Inv cs2 := by
  obtain ⟨a1, a2, a3, a4, a5⟩ := h
  exact ⟨by rw [h1, a1], by rw [h2, h3]; exact a2, by rw [h4, h3]; exact a3,
         by rw [h4, h5]; exact a4, by rw [h3, h5]; exact a5⟩

/-- Helper: the invariant holds right after `connect` completes the
handshake. -/
theorem c6_inv_connect : C6Inv connectM := by
  refine ⟨rfl, by simp [connectM, startSessionN, initNova], ?_, ?_, ?_⟩
  · intro n
    simp [connectM, startSessionN, initNova, countStarts, countEnds, countName,
      startsName, endsName]
  · intro k hk
    have hk1 : 1 ≤ k := by simpa [connectM, startSessionN, initNova] using hk
    have hk0 : ¬ (0 = k) := by omega
    simp [connectM, startSessionN, initNova, countStarts, countEnds, countName,
      startsName, endsName, hk0]
  · intro a ha
    exact absurd ha (by simp [connectM, startSessionN, initNova])
/-- Helper: every operation except an upstream reader error preserves the
block-accounting invariant. -/
theorem c6_inv_step (cs : ConnState) (op : MOp) (hop : op ≠ MOp.readerErr)
    (h : C6Inv cs) : C6Inv (mstep cs op) := by
  obtain ⟨hact, hiff, hpend, hfresh, hbound⟩ := h
  cases op with
  | readerErr => exact absurd rfl hop
  | startAudio =>
      by_cases hs : cs.audioContentStarted
      · have hred : mstep cs MOp.startAudio = cs := by simp [mstep, startAudioM, hs]
        rw [hred]
        exact ⟨hact, hiff, hpend, hfresh, hbound⟩
      · have hname : cs.nova.audioContentName = none := by
          cases hn : cs.nova.audioContentName with
          | none => rfl
          | some a => exact absurd (hiff.mpr (by simp [hn])) hs
        rw [hname] at hpend
        have hred : mstep cs MOp.startAudio =
            { cs with
              nova := { cs.nova with
                audioContentName := some cs.nova.freshCtr,
                freshCtr := cs.nova.freshCtr + 1,
                upLog := cs.nova.upLog ++
                  [UpEvent.contentStartAudio cs.nova.freshCtr] },
              audioContentStarted := true } := by
          simp [mstep, startAudioM, hs, startAudioInput, hact]
        rw [hred]
        obtain ⟨hf1, hf2⟩ := hfresh cs.nova.freshCtr (Nat.le_refl _)
        refine ⟨hact, by simp, ?_, ?_, ?_⟩
        · exact pendingBalanced_open _ _ hpend hf1 hf2
        · dsimp only
          refine freshOK_append _ _ _ _ hfresh (Nat.le_succ _) ?_
          intro k hk
          rw [countStarts_csa, countEnds_csa, if_neg (by omega)]
          exact ⟨rfl, rfl⟩
        · intro a ha
          dsimp only at ha ⊢
          simp only [Option.some.injEq] at ha
          omega
  | stopAudio =>
      by_cases hs : cs.audioContentStarted
      · obtain ⟨a, hn⟩ := Option.isSome_iff_exists.mp (hiff.mp hs)
        rw [hn] at hpend
        have hba := hbound a hn
        have hred : mstep cs MOp.stopAudio =
            { cs with
              nova := { cs.nova with
                audioContentName := none,
                upLog := cs.nova.upLog ++ [UpEvent.contentEnd a] },
              audioContentStarted := false } := by
          simp [mstep, stopAudioM, hs, endAudioInput, hn, hact]
        rw [hred]
        refine ⟨hact, by simp, pendingBalanced_close _ _ hpend, ?_, ?_⟩
        · dsimp only
          refine freshOK_append _ _ _ _ hfresh (Nat.le_refl _) ?_
          intro k hk
          rw [countStarts_ce, countEnds_ce, if_neg (by omega)]
          exact ⟨rfl, rfl⟩
        · intro a2 ha2
          exact absurd ha2 (by simp)
      · have hred : mstep cs MOp.stopAudio = cs := by simp [mstep, stopAudioM, hs]
        rw [hred]
        exact ⟨hact, hiff, hpend, hfresh, hbound⟩
  | recvAudio d =>
      by_cases hs : cs.audioContentStarted
      · cases hn : cs.nova.audioContentName with
        | none =>
            refine c6_inv_of_core_eq cs _ ?_ ?_ ?_ ?_ ?_
              ⟨hact, hiff, hpend, hfresh, hbound⟩ <;>
              simp [mstep, receiveAudioM, hs, sendAudioChunk, hn]
        | some a =>
            have hred : mstep cs (MOp.recvAudio d) =
                { cs with nova := { cs.nova with
                    upLog := cs.nova.upLog ++ [UpEvent.audioInput a d] } } := by
              simp [mstep, receiveAudioM, hs, sendAudioChunk, hn, hact]
            rw [hred]
            refine ⟨hact, by simpa using hiff, ?_, ?_, ?_⟩
            · refine pendingBalanced_append_balanced _ _ _ ?_ hpend
              intro n
              rw [countStarts_ai, countEnds_ai]
            · dsimp only
              refine freshOK_append _ _ _ _ hfresh (Nat.le_refl _) ?_
              intro k hk
              rw [countStarts_ai, countEnds_ai]
              exact ⟨rfl, rfl⟩
            · intro a2 ha2
              exact hbound a2 ha2
      · have hred : mstep cs (MOp.recvAudio d) = cs := by
          simp [mstep, receiveAudioM, hs]
        rw [hred]
        exact ⟨hact, hiff, hpend, hfresh, hbound⟩
  | toolDone id o =>
      have hred : mstep cs (MOp.toolDone id o) =
          { cs with nova := { cs.nova with
              freshCtr := cs.nova.freshCtr + 1,
              upLog := cs.nova.upLog ++
                [UpEvent.contentStartTool cs.nova.freshCtr id,
                 UpEvent.toolResult cs.nova.freshCtr (invokeChameleon o),
                 UpEvent.contentEnd cs.nova.freshCtr] } } := by
        simp [mstep, hact, executeToolAndSendResult]
      rw [hred]
      refine ⟨hact, by simpa using hiff, ?_, ?_, ?_⟩
      · refine pendingBalanced_append_balanced _ _ _ ?_ hpend
        intro n
        rw [countStarts_toolblock, countEnds_toolblock]
      · dsimp only
        refine freshOK_append _ _ _ _ hfresh (Nat.le_succ _) ?_
        intro k hk
        rw [countStarts_toolblock, countEnds_toolblock, if_neg (by omega)]
        exact ⟨rfl, rfl⟩
      · intro a2 ha2
        dsimp only at ha2 ⊢
        have := hbound a2 ha2
        omega
  | textOut t =>
      refine c6_inv_of_core_eq cs _ ?_ ?_ ?_ ?_ ?_
        ⟨hact, hiff, hpend, hfresh, hbound⟩ <;>
        by_cases hi : isInterrupted t <;>
        simp [mstep, hact, readerTextStep, hi]
  | audioOut f =>
      refine c6_inv_of_core_eq cs _ ?_ ?_ ?_ ?_ ?_
        ⟨hact, hiff, hpend, hfresh, hbound⟩ <;>
        simp [mstep, hact, readerAudioStep]
  | relayStep =>
      by_cases hb : cs.nova.bargeIn
      · refine c6_inv_of_core_eq cs _ ?_ ?_ ?_ ?_ ?_
          ⟨hact, hiff, hpend, hfresh, hbound⟩ <;>
          simp [mstep, processAudioStep, hact, hb]
      · cases hq : cs.nova.audioQueue with
        | nil =>
            refine c6_inv_of_core_eq cs _ ?_ ?_ ?_ ?_ ?_
              ⟨hact, hiff, hpend, hfresh, hbound⟩ <;>
              simp [mstep, processAudioStep, hact, hb, hq]
        | cons f rest =>
            refine c6_inv_of_core_eq cs _ ?_ ?_ ?_ ?_ ?_
              ⟨hact, hiff, hpend, hfresh, hbound⟩ <;>
              simp [mstep, processAudioStep, hact, hb, hq]

/-- Helper: the invariant survives any error-free operation sequence. -/
theorem c6_inv_run : ∀ (ops : List MOp), (∀ op ∈ ops, op ≠ MOp.readerErr) →
    ∀ cs, C6Inv cs → C6Inv (runOps cs ops) := by
  intro ops
  induction ops with
  | nil => intro _ cs h; exact h
  | cons op rest ih =>
      intro hops cs h
      exact ih (fun x hx => hops x (List.mem_cons_of_mem op hx))
        (mstep cs op) (c6_inv_step cs op (hops op (List.mem_cons_self op rest)) h)

/-- Helper: from an invariant state, `disconnect` closes the open audio
block (if any) and then ends the session, leaving a fully balanced
upstream log. -/
theorem c6_balanced_after_disconnect (cs : ConnState) (h : C6Inv cs) :
    balancedLog (disconnectM cs).nova.upLog := by
  obtain ⟨hact, hiff, hpend, hfresh, hbound⟩ := h
  by_cases hs : cs.audioContentStarted
  · obtain ⟨a, hn⟩ := Option.isSome_iff_exists.mp (hiff.mp hs)
    rw [hn] at hpend
    have hred : (disconnectM cs).nova.upLog =
        (cs.nova.upLog ++ [UpEvent.contentEnd a]) ++
          [UpEvent.promptEnd, UpEvent.sessionEnd] := by
      simp [disconnectM, stopAudioM, hs, endAudioInput, hn, hact, endSessionN]
    rw [hred]
    refine pendingBalanced_append_balanced _ none _ ?_
      (pendingBalanced_close _ _ hpend)
    intro n
    rw [countStarts_tail, countEnds_tail]
  · have hname : cs.nova.audioContentName = none := by
      cases hn : cs.nova.audioContentName with
      | none => rfl
      | some a => exact absurd (hiff.mpr (by simp [hn])) hs
    rw [hname] at hpend
    have hred : (disconnectM cs).nova.upLog =
        cs.nova.upLog ++ [UpEvent.promptEnd, UpEvent.sessionEnd] := by
      simp [disconnectM, hs, endSessionN, hact]
    rw [hred]
    refine pendingBalanced_append_balanced _ none _ ?_ hpend
    intro n
    rw [countStarts_tail, countEnds_tail]

/-- C6 amended: in every session whose run is free of upstream reader
errors, each `contentStart` sent upstream (system prompt, inbound audio,
tool results) is matched by exactly one `contentEnd` with the same
content name by the time teardown completes. -/
theorem c6_content_block_balance_amended (ops : List MOp)
    (hops : ∀ op ∈ ops, op ≠ MOp.readerErr) :
    balancedLog (sessionRun ops).nova.upLog :=
  c6_balanced_after_disconnect _ (c6_inv_run ops hops connectM c6_inv_connect)

/-- Witness for the amended C6: a concrete run with an audio block, an
audio chunk, a stop, and one tool result ends fully balanced. -/
theorem c6_content_block_balance_amended_witness :
    balancedLog (sessionRun c6wOps).nova.upLog :=
  c6_content_block_balance_amended c6wOps (by decide)

/-- C6 counterexample: if the upstream reader fails while the inbound
audio block is open, teardown runs with `is_active` already false, so
`end_audio_input` skips the audio `contentEnd` and `end_session` returns
early — the audio `contentStart` is never matched, violating the claimed
balance for error-triggered teardown. -/
theorem c6_content_block_balance_counterexample :
    ¬ balancedLog (sessionRun c6cexOps).nova.upLog := by
  intro h
  have h1 := h 1
  revert h1
  decide
